import Mathlib

/-!
Verification of the authentication form logic of `src/pages/auth/AuthPage.tsx`.

The file shallowly embeds the pure client-side logic of the auth page:
the field validators (`validateEmail`, `validatePhone`), the password
strength scorer (`calculatePasswordStrength`) and policy check
(`validatePassword`), the availability checker
(`checkEmailAvailability`, with the external data service modelled as an
explicit query function), the full-form validation (`validateFormErrors`
and `validateForm`), the submission dispatch (`submitAction`,
`submitDialog`) and the mode-toggle reset (`resetForm`, `toggleMode`).

Strings are handled through their underlying `List Char`; JavaScript
regular expressions are translated to explicit decidable predicates on
character lists.
-/

/-- The character class `\s` of JavaScript regular expressions:
space, tab, line feed, carriage return, vertical tab, form feed,
no-break space, ogham space mark, the `U+2000`–`U+200A` range, line and
paragraph separators, narrow no-break space, medium mathematical space,
ideographic space and the byte-order mark. -/
def isJsWhitespace (c : Char) : Bool :=
  ([0x20, 0x09, 0x0A, 0x0D, 0x0B, 0x0C, 0xA0, 0x1680, 0x2028, 0x2029,
    0x202F, 0x205F, 0x3000, 0xFEFF] : List Nat).contains c.toNat
  || (decide (0x2000 ≤ c.toNat) && decide (c.toNat ≤ 0x200A))

/-- The character class `[^\s@]` used by the email regex in
`AuthPage.tsx` line 48: any character that is neither whitespace
nor `@`. -/
def emailChar (c : Char) : Bool :=
  !isJsWhitespace c && c != '@'

/-- Boolean test that a character differs from `@`; the guard used to
split the email string at its first `@`. -/
def notAt (c : Char) : Bool :=
  c != '@'

/-- Embedding of `validateEmail` (`AuthPage.tsx` lines 47-50): the test
of the regex `^[^\s@]+@[^\s@]+\.[^\s@]+$`.  Since `@` is excluded from
every character class of the regex, a matching string consists of a
nonempty `@`-free local part, a single `@`, and a domain whose
characters all avoid whitespace and `@` and which contains a dot that
is neither its first nor its last character. -/
def validateEmail (s : String) : Bool :=
  let l := s.data
  let localPart := l.takeWhile notAt
  let rest := l.dropWhile notAt
  !localPart.isEmpty && localPart.all emailChar &&
  !rest.isEmpty && (rest.drop 1).all emailChar &&
  ((rest.drop 1).tail.dropLast.contains '.')

/-- The character class `\d` of JavaScript regular expressions:
the ASCII digits `0`–`9`. -/
def isDigitChar (c : Char) : Bool :=
  decide ('0' ≤ c) && decide (c ≤ '9')

/-- Removal of every `\s` character, the embedding of
`phone.replace(/\s/g, "")` in `AuthPage.tsx` line 55. -/
def stripWhitespace (s : String) : List Char :=
  s.data.filter (fun c => !isJsWhitespace c)

/-- The suffix `[1-9]\d{1,14}$` of the phone regex: a first digit in
`1`–`9` followed by one to fourteen further digits. -/
def phoneDigits (l : List Char) : Bool :=
  match l with
  | [] => false
  | c :: rest =>
    decide ('1' ≤ c) && decide (c ≤ '9') && rest.all isDigitChar &&
    decide (1 ≤ rest.length) && decide (rest.length ≤ 14)

/-- The test of the regex `^\+?[1-9]\d{1,14}$` (`AuthPage.tsx` line 54):
an optional leading `+` followed by `phoneDigits`. -/
def phoneRegexTest (l : List Char) : Bool :=
  match l with
  | [] => false
  | c :: rest => if c = '+' then phoneDigits rest else phoneDigits (c :: rest)

/-- Embedding of `validatePhone` (`AuthPage.tsx` lines 52-56): whitespace
is stripped from the input, then the phone regex is applied. -/
def validatePhone (s : String) : Bool :=
  phoneRegexTest (stripWhitespace s)

/-- The character class `[A-Z]` of the uppercase strength criterion. -/
def isUpperChar (c : Char) : Bool :=
  decide ('A' ≤ c) && decide (c ≤ 'Z')

/-- The character class `[a-z]` of the lowercase strength criterion. -/
def isLowerChar (c : Char) : Bool :=
  decide ('a' ≤ c) && decide (c ≤ 'z')

/-- The special characters accepted by the fifth strength criterion,
the class `[!@#$%^&*(),.?":{}|<>]` of `AuthPage.tsx` line 200. -/
def specialChars : List Char :=
  ['!', '@', '#', '$', '%', '^', '&', '*', '(', ')', ',', '.', '?',
   '\"', ':', '\x7b', '\x7d', '|', '<', '>']

/-- Membership in the special-character class. -/
def isSpecialChar (c : Char) : Bool :=
  specialChars.contains c

/-- The five per-criterion checks of the password strength scorer
(`AuthPage.tsx` lines 195-201). -/
structure PasswordChecks where
  length : Bool
  uppercase : Bool
  lowercase : Bool
  number : Bool
  special : Bool
  deriving DecidableEq

/-- The result record of `calculatePasswordStrength`
(`AuthPage.tsx` lines 33-45). -/
structure PasswordStrength where
  score : Nat
  label : String
  color : String
  bgColor : String
  checks : PasswordChecks
  deriving DecidableEq

/-- The `switch (score)` of `AuthPage.tsx` lines 209-240, producing
label, text color and bar color; the final arm is the `default` branch
of the switch and is reached exactly for scores of six or more. -/
def strengthTable (score : Nat) : String × String × String :=
  match score with
  | 0 => ("Very Weak", "text-red-600", "bg-red-500")
  | 1 => ("Very Weak", "text-red-600", "bg-red-500")
  | 2 => ("Weak", "text-orange-600", "bg-orange-500")
  | 3 => ("Fair", "text-yellow-600", "bg-yellow-500")
  | 4 => ("Good", "text-blue-600", "bg-blue-500")
  | 5 => ("Strong", "text-green-600", "bg-green-500")
  | _ => ("Very Weak", "text-red-600", "bg-red-500")

/-- Embedding of `calculatePasswordStrength` (`AuthPage.tsx` lines
194-243): the five criteria are evaluated, the score is the number of
criteria that hold (`Object.values(checks).filter(Boolean).length`),
and label and colors come from the score switch. -/
def calculatePasswordStrength (password : String) : PasswordStrength :=
  let checks : PasswordChecks :=
    { length := decide (8 ≤ password.length)
      uppercase := password.data.any isUpperChar
      lowercase := password.data.any isLowerChar
      number := password.data.any isDigitChar
      special := password.data.any isSpecialChar }
  let score :=
    ([checks.length, checks.uppercase, checks.lowercase, checks.number,
      checks.special].filter (fun b => b)).length
  let lcb := strengthTable score
  { score := score, label := lcb.1, color := lcb.2.1, bgColor := lcb.2.2,
    checks := checks }

/-- Embedding of `validatePassword` (`AuthPage.tsx` lines 247-256):
the password policy holds only when all five strength checks hold. -/
def validatePassword (password : String) : Bool :=
  let checks := (calculatePasswordStrength password).checks
  checks.length && checks.uppercase && checks.lowercase &&
  checks.number && checks.special

/-- Modelled from the spec and claim wording, for comparison with the
code's `strengthTable`: the fixed score-to-label table — scores 0 and 1
map to "Very Weak", 2 to "Weak", 3 to "Fair", 4 to "Good" and 5 to
"Strong". -/
def claimLabelTable (score : Nat) : String :=
  if score ≤ 1 then "Very Weak"
  else if score = 2 then "Weak"
  else if score = 3 then "Fair"
  else if score = 4 then "Good"
  else "Strong"

/-- The length of the filtered five-element boolean list equals the sum
of indicator values of the five booleans. -/
lemma filter_five_length (b1 b2 b3 b4 b5 : Bool) :
    ([b1, b2, b3, b4, b5].filter (fun b => b)).length =
      ((if b1 = true then 1 else 0) + (if b2 = true then 1 else 0) +
       (if b3 = true then 1 else 0) + (if b4 = true then 1 else 0) +
       (if b5 = true then 1 else 0)) := by
  cases b1 <;> cases b2 <;> cases b3 <;> cases b4 <;> cases b5 <;> rfl

/-- The password strength score never exceeds five. -/
lemma passwordScore_le_five (p : String) :
    (calculatePasswordStrength p).score ≤ 5 :=
  le_trans (List.length_filter_le _ _) (le_refl 5)

/-- For scores in the range of the switch, the label computed by the
score switch agrees with the table stated in the specification. -/
lemma strengthTable_eq_claimLabelTable (n : Nat) (h : n ≤ 5) :
    (strengthTable n).1 = claimLabelTable n := by
  interval_cases n <;> rfl

/-- C1: for every password string, the strength score equals the count
of satisfied criteria among length at least eight, an uppercase letter,
a lowercase letter, a digit and a special character; and the label is
determined solely by the score through the fixed table sending scores
zero and one to "Very Weak", two to "Weak", three to "Fair", four to
"Good" and five to "Strong". -/
theorem passwordStrength_score_and_label (p : String) :
    (calculatePasswordStrength p).score =
      ((if 8 ≤ p.length then 1 else 0) +
       (if ∃ c ∈ p.data, isUpperChar c = true then 1 else 0) +
       (if ∃ c ∈ p.data, isLowerChar c = true then 1 else 0) +
       (if ∃ c ∈ p.data, isDigitChar c = true then 1 else 0) +
       (if ∃ c ∈ p.data, isSpecialChar c = true then 1 else 0)) ∧
    (calculatePasswordStrength p).label =
      claimLabelTable (calculatePasswordStrength p).score := by
  constructor
  · show ([decide (8 ≤ p.length), p.data.any isUpperChar,
        p.data.any isLowerChar, p.data.any isDigitChar,
        p.data.any isSpecialChar].filter (fun b => b)).length = _
    rw [filter_five_length]
    simp only [decide_eq_true_eq, List.any_eq_true]
  · have hl : (calculatePasswordStrength p).label =
        (strengthTable (calculatePasswordStrength p).score).1 := rfl
    rw [hl]
    exact strengthTable_eq_claimLabelTable _ (passwordScore_le_five p)

/-- C10: the password strength scorer is total — for every input the
score is at most five (hence, the score being a natural number, it lies
in the range zero to five, and the `default` arm of the score switch,
reached only for scores of six or more, is unreachable), and the label
is always one of the five fixed labels. -/
theorem passwordStrength_total (p : String) :
    (calculatePasswordStrength p).score ≤ 5 ∧
    ¬ 6 ≤ (calculatePasswordStrength p).score ∧
    (calculatePasswordStrength p).label ∈
      (["Very Weak", "Weak", "Fair", "Good", "Strong"] : List String) := by
  have h5 := passwordScore_le_five p
  refine ⟨h5, by omega, ?_⟩
  have hl : (calculatePasswordStrength p).label =
      (strengthTable (calculatePasswordStrength p).score).1 := rfl
  rw [hl]
  set n := (calculatePasswordStrength p).score with hn
  interval_cases n <;> decide

/-- The form data record (`AuthPage.tsx` lines 17-23, initialised at
lines 114-120 with empty strings for every field). -/
structure FormDataS where
  email : String
  password : String
  confirmPassword : String
  fullName : String
  phone : String
  deriving DecidableEq

/-- The initial (empty) form data. -/
def emptyFormData : FormDataS :=
  { email := "", password := "", confirmPassword := "", fullName := "",
    phone := "" }

/-- The field error map (`AuthPage.tsx` lines 25-31); a field is absent
from the map exactly when its entry is `none`. -/
structure FormErrors where
  email : Option String
  password : Option String
  confirmPassword : Option String
  fullName : Option String
  phone : Option String
  deriving DecidableEq

/-- The empty error map. -/
def noErrors : FormErrors :=
  { email := none, password := none, confirmPassword := none,
    fullName := none, phone := none }

/-- The availability-check state for a field (`AuthPage.tsx` lines
122-140): a checking flag, a tri-state verdict (`null`, `true` or
`false`, modelled as `Option Bool`) and a display message. -/
structure ValidState where
  isChecking : Bool
  isValid : Option Bool
  message : String
  deriving DecidableEq

/-- The initial availability-check state: not checking, unknown verdict,
empty message. -/
def initialValidState : ValidState :=
  { isChecking := false, isValid := none, message := "" }

/-- The component state of `AuthPage` relevant to validation and
submission: the mode flag `isLogin`, the form data, the error map, the
touched-field set and the two availability-check states. -/
structure ComponentState where
  isLogin : Bool
  formData : FormDataS
  errors : FormErrors
  touchedFields : List String
  emailValidation : ValidState
  phoneValidation : ValidState
  deriving DecidableEq

/-- Embedding of `resetForm` (`AuthPage.tsx` lines 282-294): form data,
errors, touched fields and both availability-check states return to
their initial values; the mode flag is untouched. -/
def resetForm (st : ComponentState) : ComponentState :=
  { st with
    formData := emptyFormData
    errors := noErrors
    touchedFields := []
    emailValidation := initialValidState
    phoneValidation := initialValidState }

/-- Embedding of `toggleMode` (`AuthPage.tsx` lines 537-540): the mode
flag is flipped and the form is reset. -/
def toggleMode (st : ComponentState) : ComponentState :=
  resetForm { st with isLogin := !st.isLogin }

/-- Embedding of the `newErrors` computation of `validateForm`
(`AuthPage.tsx` lines 360-413).  Each field follows the source's
if-chains; the in-flight availability checks (lines 401-408, register
mode only) overwrite any earlier email or phone error. -/
def validateFormErrors (st : ComponentState) : FormErrors :=
  let fd := st.formData
  let emailErrBase : Option String :=
    if fd.email = "" then some "Email is required"
    else if validateEmail fd.email = false then
      some "Please enter a valid email address"
    else if st.isLogin = false ∧ st.emailValidation.isValid = some false then
      some st.emailValidation.message
    else none
  let passwordErr : Option String :=
    if fd.password = "" then some "Password is required"
    else if st.isLogin = false ∧ validatePassword fd.password = false then
      some "Password must meet all requirements"
    else none
  let fullNameErr : Option String :=
    if st.isLogin = false then
      if fd.fullName = "" then some "Full name is required"
      else if fd.fullName.length < 2 then
        some "Full name must be at least 2 characters"
      else none
    else none
  let confirmErr : Option String :=
    if st.isLogin = false then
      if fd.confirmPassword = "" then some "Please confirm your password"
      else if fd.password ≠ fd.confirmPassword then
        some "Passwords do not match"
      else none
    else none
  let phoneErrBase : Option String :=
    if st.isLogin = false ∧ fd.phone ≠ "" then
      if validatePhone fd.phone = false then
        some "Please enter a valid phone number"
      else if st.phoneValidation.isValid = some false then
        some st.phoneValidation.message
      else none
    else none
  let emailErr : Option String :=
    if st.isLogin = false ∧ st.emailValidation.isChecking = true then
      some "Please wait while we check email availability"
    else emailErrBase
  let phoneErr : Option String :=
    if st.isLogin = false ∧ st.phoneValidation.isChecking = true then
      some "Please wait while we check phone availability"
    else phoneErrBase
  { email := emailErr, password := passwordErr, confirmPassword := confirmErr,
    fullName := fullNameErr, phone := phoneErr }

/-- The boolean returned by `validateForm` (`AuthPage.tsx` line 412):
true exactly when the recomputed error map has no entries. -/
def validateForm (st : ComponentState) : Bool :=
  let e := validateFormErrors st
  e.email.isNone && e.password.isNone && e.confirmPassword.isNone &&
  e.fullName.isNone && e.phone.isNone

/-- The external call made by `handleSubmit` (`AuthPage.tsx` lines
415-535): none when validation fails, a credential sign-in in login
mode, a sign-up with profile metadata in register mode. -/
inductive SubmitAction where
  | blocked
  | signInCall (email password : String)
  | signUpCall (email password fullName phone : String)
  deriving DecidableEq

/-- Embedding of the dispatch of `handleSubmit`: validation gates the
external call (lines 418-426), then the mode selects sign-in (line 435)
or sign-up (line 499). -/
def submitAction (st : ComponentState) : SubmitAction :=
  if validateForm st = false then .blocked
  else if st.isLogin then
    .signInCall st.formData.email st.formData.password
  else
    .signUpCall st.formData.email st.formData.password
      st.formData.fullName st.formData.phone

/-- The terminal notification dialog produced by one submission attempt
of `handleSubmit`. -/
inductive Dialog where
  | validationError
  | emailNotConfirmed
  | loginFailed (text : String)
  | loginSuccess
  | registrationFailed (text : String)
  | registrationSuccess
  deriving DecidableEq

/-- Embedding of the notification logic of `handleSubmit`
(`AuthPage.tsx` lines 418-531), with the external identity provider's
response modelled as an optional error message (`none` meaning
success).  In login mode the exact provider message
"Email not confirmed" selects the resend-offer dialog (lines 441-451);
every other message selects the generic failure dialog whose text falls
back when the provider message is empty (lines 475-482). -/
def submitDialog (st : ComponentState) (providerError : Option String) : Dialog :=
  if validateForm st = false then .validationError
  else if st.isLogin then
    match providerError with
    | some m =>
      if m = "Email not confirmed" then .emailNotConfirmed
      else .loginFailed
        (if m = "" then "Invalid email or password. Please try again." else m)
    | none => .loginSuccess
  else
    match providerError with
    | some m => .registrationFailed m
    | none => .registrationSuccess

/-- The structured result of the availability checkers
(`AuthPage.tsx` lines 58, 80). -/
structure AvailabilityResult where
  isValid : Bool
  message : String
  deriving DecidableEq

/-- Lowercasing of a string, the embedding of
`email.toLowerCase()` in `AuthPage.tsx` line 66. -/
def toLowerCase (s : String) : String :=
  String.mk (s.data.map Char.toLower)

/-- Embedding of `checkEmailAvailability` (`AuthPage.tsx` lines 58-78).
The external data service query
(`supabase.from("profiles").select("id").eq("email", ...)`) is passed
in as an explicit function returning either an error or the list of
matching profile rows.  Local format validation short-circuits before
the query; a query error yields a generic invalid result; a nonempty
row list yields the already-registered result; otherwise the email is
available. -/
def checkEmailAvailability (query : String → Except Unit (List String))
    (email : String) : AvailabilityResult :=
  if validateEmail email = false then
    { isValid := false, message := "Please enter a valid email format" }
  else
    match query (toLowerCase email) with
    | .error _ =>
      { isValid := false, message := "Error checking email. Please try again." }
    | .ok existingUser =>
      if 0 < existingUser.length then
        { isValid := false, message := "This email is already registered" }
      else
        { isValid := true, message := "Email is available" }

/-- C4: the availability checker always returns a structured result.
If the local format check fails, the result is the format-failure
message and is independent of the external query; if the query reports
an existing profile for the lowercased email, the result is
"This email is already registered"; if the query itself errors, the
result is invalid with the generic error message; otherwise the email
is reported available. -/
theorem checkEmailAvailability_cases
    (q : String → Except Unit (List String)) (email : String) :
    (validateEmail email = false →
      checkEmailAvailability q email =
        { isValid := false, message := "Please enter a valid email format" } ∧
      ∀ q2, checkEmailAvailability q2 email = checkEmailAvailability q email) ∧
    (∀ l, validateEmail email = true → q (toLowerCase email) = .ok l → l ≠ [] →
      checkEmailAvailability q email =
        { isValid := false, message := "This email is already registered" }) ∧
    (∀ e, validateEmail email = true → q (toLowerCase email) = .error e →
      checkEmailAvailability q email =
        { isValid := false,
          message := "Error checking email. Please try again." }) ∧
    (validateEmail email = true → q (toLowerCase email) = .ok [] →
      checkEmailAvailability q email =
        { isValid := true, message := "Email is available" }) := by
  refine ⟨?_, ?_, ?_, ?_⟩
  · intro h
    exact ⟨by simp [checkEmailAvailability, h],
      fun q2 => by simp [checkEmailAvailability, h]⟩
  · intro l hv hq hl
    simp [checkEmailAvailability, hv, hq, List.length_pos.mpr hl]
  · intro e hv hq
    simp [checkEmailAvailability, hv, hq]
  · intro hv hq
    simp [checkEmailAvailability, hv, hq]

/-- Witness for C4: a service reporting an existing profile for
"taken@example.com" makes the checker return the already-registered
result. -/
theorem checkEmailAvailability_cases_witness :
    checkEmailAvailability (fun _ => Except.ok ["profile-id"])
        "taken@example.com" =
      { isValid := false, message := "This email is already registered" } :=
  (checkEmailAvailability_cases (fun _ => Except.ok ["profile-id"])
      "taken@example.com").2.1 ["profile-id"] (by decide) rfl (by decide)

/-- C5: in register mode, while the email availability check is in
flight, full-form validation records the please-wait error on the email
field, returns false, and the submission dispatch makes no external
call. -/
theorem submit_blocked_while_email_checking (st : ComponentState)
    (hmode : st.isLogin = false)
    (hchk : st.emailValidation.isChecking = true) :
    (validateFormErrors st).email =
      some "Please wait while we check email availability" ∧
    validateForm st = false ∧
    submitAction st = .blocked := by
  have he : (validateFormErrors st).email =
      some "Please wait while we check email availability" := by
    simp [validateFormErrors, hmode, hchk]
  have hv : validateForm st = false := by
    simp [validateForm, he]
  exact ⟨he, hv, by simp [submitAction, hv]⟩

/-- A register-mode state whose email availability check is still in
flight. -/
def checkingState : ComponentState :=
  ⟨false, ⟨"user@mail.com", "Passw0rd!", "Passw0rd!", "Jane Doe", ""⟩,
   noErrors, [], ⟨true, none, "Checking availability..."⟩, initialValidState⟩

/-- Witness for C5 at a concrete in-flight state. -/
theorem submit_blocked_while_email_checking_witness :
    (validateFormErrors checkingState).email =
      some "Please wait while we check email availability" ∧
    validateForm checkingState = false ∧
    submitAction checkingState = .blocked :=
  submit_blocked_while_email_checking checkingState rfl rfl

/-- C7: on a login submission that passes validation, the provider
error message exactly "Email not confirmed" produces the resend-offer
dialog and not the generic failure dialog, while any other provider
error message produces the generic failure dialog and not the
resend-offer dialog. -/
theorem login_unconfirmed_email_dialog (st : ComponentState) (m : String)
    (hv : validateForm st = true) (hl : st.isLogin = true) :
    (m = "Email not confirmed" →
      submitDialog st (some m) = .emailNotConfirmed ∧
      ∀ t, submitDialog st (some m) ≠ .loginFailed t) ∧
    (m ≠ "Email not confirmed" →
      submitDialog st (some m) ≠ .emailNotConfirmed ∧
      ∃ t, submitDialog st (some m) = .loginFailed t) := by
  constructor
  · intro hm
    have hd : submitDialog st (some m) = .emailNotConfirmed := by
      simp [submitDialog, hv, hl, hm]
    exact ⟨hd, fun t => by rw [hd]; simp⟩
  · intro hm
    have hd : submitDialog st (some m) =
        .loginFailed
          (if m = "" then "Invalid email or password. Please try again."
           else m) := by
      simp [submitDialog, hv, hl, hm]
    exact ⟨by rw [hd]; simp, ⟨_, hd⟩⟩

/-- A login-mode state that passes full-form validation. -/
def loginState : ComponentState :=
  ⟨true, ⟨"user@mail.com", "secret", "", "", ""⟩, noErrors, [],
   initialValidState, initialValidState⟩

/-- Witness for C7 at a concrete valid login state, for both the
distinguished message and a generic one. -/
theorem login_unconfirmed_email_dialog_witness :
    submitDialog loginState (some "Email not confirmed") =
      .emailNotConfirmed ∧
    ∃ t, submitDialog loginState (some "Invalid login credentials") =
      .loginFailed t := by
  constructor
  · exact ((login_unconfirmed_email_dialog loginState "Email not confirmed"
      (by decide) rfl).1 rfl).1
  · exact ((login_unconfirmed_email_dialog loginState
      "Invalid login credentials" (by decide) rfl).2 (by decide)).2

/-- C8: toggling the mode resets the form state — all form fields
become empty strings, the error map and the touched-field set become
empty, both availability-check states return to the unknown,
not-checking, message-free state — and the reset is idempotent. -/
theorem toggleMode_resets (st : ComponentState) :
    (toggleMode st).formData = emptyFormData ∧
    (toggleMode st).errors = noErrors ∧
    (toggleMode st).touchedFields = [] ∧
    (toggleMode st).emailValidation = initialValidState ∧
    (toggleMode st).phoneValidation = initialValidState ∧
    resetForm (resetForm st) = resetForm st :=
  ⟨rfl, rfl, rfl, rfl, rfl, rfl⟩

/-- C9: in login mode, any non-empty password passes the local password
check of full-form validation (the five-criteria policy applies only to
register mode), and the computed error map does not depend on either
availability-check state. -/
theorem login_mode_validation (st : ComponentState) (v w : ValidState)
    (hl : st.isLogin = true) :
    (st.formData.password ≠ "" → (validateFormErrors st).password = none) ∧
    validateFormErrors
        { st with emailValidation := v, phoneValidation := w } =
      validateFormErrors st := by
  constructor
  · intro hp
    simp [validateFormErrors, hl, hp]
  · simp [validateFormErrors, hl]

/-- A login-mode state with a short non-empty password. -/
def loginShortPasswordState : ComponentState :=
  ⟨true, ⟨"user@mail.com", "pw", "", "", ""⟩, noErrors, [],
   initialValidState, initialValidState⟩

/-- Witness for C9: in a concrete login state the two-character password
yields no password error, and replacing both availability-check states
by a failed check leaves the error map unchanged. -/
theorem login_mode_validation_witness :
    (validateFormErrors loginShortPasswordState).password = none ∧
    validateFormErrors
        { loginShortPasswordState with
          emailValidation := ⟨true, some false, "taken"⟩,
          phoneValidation := ⟨true, some false, "taken"⟩ } =
      validateFormErrors loginShortPasswordState := by
  have h := login_mode_validation loginShortPasswordState
    ⟨true, some false, "taken"⟩ ⟨true, some false, "taken"⟩ rfl
  exact ⟨h.1 (by decide), h.2⟩

/-- A register-mode state whose fields all pass local validation while
the email availability state is still the initial unknown verdict
(`isValid = none`), with no check in flight. -/
def unknownAvailabilityState : ComponentState :=
  ⟨false, ⟨"a@b.c", "Passw0rd!", "Passw0rd!", "Ab", ""⟩, noErrors, [],
   initialValidState, initialValidState⟩

/-- Counterexample to C6: in this register-mode state no affirmative
availability result was ever recorded (the verdict is the unknown
`none`, not `some true`), yet full-form validation passes the email
field and the submission dispatch proceeds to the external sign-up
call. -/
theorem register_submit_without_affirmative_result :
    unknownAvailabilityState.isLogin = false ∧
    unknownAvailabilityState.emailValidation.isChecking = false ∧
    unknownAvailabilityState.emailValidation.isValid ≠ some true ∧
    (validateFormErrors unknownAvailabilityState).email = none ∧
    validateForm unknownAvailabilityState = true ∧
    submitAction unknownAvailabilityState =
      .signUpCall "a@b.c" "Passw0rd!" "Ab" "" := by
  exact ⟨rfl, rfl, by decide, by decide, by decide, by decide⟩

/-- C6 as amended: in register mode, full-form validation passes the
email field only if no availability check is in flight and the recorded
availability verdict is not a negative one (it may be affirmative or
still unknown); consequently submission proceeds to the external
sign-up call only under the same condition. -/
theorem register_email_validation_gate (st : ComponentState)
    (hmode : st.isLogin = false) :
    ((validateFormErrors st).email = none →
      st.emailValidation.isChecking = false ∧
      st.emailValidation.isValid ≠ some false) ∧
    (∀ e p f ph, submitAction st = .signUpCall e p f ph →
      st.emailValidation.isChecking = false ∧
      st.emailValidation.isValid ≠ some false) := by
  have key : (validateFormErrors st).email = none →
      st.emailValidation.isChecking = false ∧
      st.emailValidation.isValid ≠ some false := by
    intro h
    by_cases hc : st.emailValidation.isChecking = true
    · exfalso
      simp [validateFormErrors, hmode, hc] at h
    · have hc2 : st.emailValidation.isChecking = false := by
        cases hb : st.emailValidation.isChecking
        · rfl
        · exact absurd hb hc
      refine ⟨hc2, ?_⟩
      intro hv
      simp [validateFormErrors, hmode, hc2, hv] at h
      split at h
      · exact Option.noConfusion h
      · split at h
        · exact Option.noConfusion h
        · exact Option.noConfusion h
  refine ⟨key, ?_⟩
  intro e p f ph hsub
  by_cases hvf : validateForm st = false
  · rw [submitAction] at hsub
    simp [hvf] at hsub
  · have hvt : validateForm st = true := by
      cases hb : validateForm st
      · exact absurd hb hvf
      · rfl
    have hemail : (validateFormErrors st).email = none := by
      rw [validateForm] at hvt
      simp only [Bool.and_eq_true, Option.isNone_iff_eq_none] at hvt
      exact hvt.1.1.1.1
    exact key hemail

/-- Witness for the amended C6 at the concrete unknown-verdict state. -/
theorem register_email_validation_gate_witness :
    unknownAvailabilityState.emailValidation.isChecking = false ∧
    unknownAvailabilityState.emailValidation.isValid ≠ some false :=
  (register_email_validation_gate unknownAvailabilityState rfl).1 (by decide)

/-- A list membership transfers to the boolean `contains` test. -/
lemma contains_of_mem {c : Char} {l : List Char} (h : c ∈ l) :
    l.contains c = true := by
  simpa [List.contains] using h

/-- A character of the email class is not `@`. -/
lemma emailChar_ne_at {c : Char} (h : emailChar c = true) : c ≠ '@' := by
  simp [emailChar] at h
  exact h.2

/-- Taking while not-`@` over a list that reaches an `@` after `@`-free
characters returns exactly those characters. -/
lemma takeWhile_notAt_append (a rest : List Char)
    (ha : ∀ x ∈ a, x ≠ '@') :
    (a ++ '@' :: rest).takeWhile notAt = a := by
  induction a with
  | nil => simp [List.takeWhile_cons, notAt]
  | cons x xs ih =>
    have hx : x ≠ '@' := ha x (List.mem_cons_self x xs)
    rw [List.cons_append, List.takeWhile_cons]
    simp only [notAt, bne_iff_ne, ne_eq, hx, not_false_eq_true, if_true]
    rw [ih (fun y hy => ha y (List.mem_cons_of_mem x hy))]

/-- Dropping while not-`@` over a list that reaches an `@` after
`@`-free characters returns the `@` and everything after it. -/
lemma dropWhile_notAt_append (a rest : List Char)
    (ha : ∀ x ∈ a, x ≠ '@') :
    (a ++ '@' :: rest).dropWhile notAt = '@' :: rest := by
  induction a with
  | nil => simp [List.dropWhile_cons, notAt]
  | cons x xs ih =>
    have hx : x ≠ '@' := ha x (List.mem_cons_self x xs)
    rw [List.cons_append, List.dropWhile_cons]
    simp only [notAt, bne_iff_ne, ne_eq, hx, not_false_eq_true, if_true]
    exact ih (fun y hy => ha y (List.mem_cons_of_mem x hy))

/-- A dot followed by at least one further character survives
`dropLast`, wherever it sits in the list. -/
lemma dot_mem_dropLast (b2 : List Char) (y : Char) (c2 : List Char) :
    '.' ∈ (b2 ++ '.' :: y :: c2).dropLast := by
  induction b2 with
  | nil =>
    rw [List.nil_append, List.dropLast_cons_of_ne_nil (by simp)]
    exact List.mem_cons_self _ _
  | cons x xs ih =>
    rw [List.cons_append, List.dropLast_cons_of_ne_nil (by simp)]
    exact List.mem_cons_of_mem _ ih

/-- Dropping while not-`@` over an `@`-free list drops everything. -/
lemma dropWhile_notAt_eq_nil (l : List Char) :
    '@' ∉ l → l.dropWhile notAt = [] := by
  induction l with
  | nil => intro _; rfl
  | cons x xs ih =>
    intro h
    have hx : x ≠ '@' := by
      intro he
      exact h (he ▸ List.mem_cons_self x xs)
    rw [List.dropWhile_cons]
    simp only [notAt, bne_iff_ne, ne_eq, hx, not_false_eq_true, if_true]
    exact ih (fun hm => h (List.mem_cons_of_mem x hm))

/-- C2: every string of the shape nonempty class characters, `@`,
nonempty class characters, `.`, nonempty class characters (the regex
`^[^\s@]+@[^\s@]+\.[^\s@]+$`) passes the email validator; every string
without an `@`, and every string without a `.` at or after its first
`@`, fails it — in particular the empty string fails. -/
theorem validateEmail_spec (s : String) :
    (∀ a b c : List Char, a ≠ [] → b ≠ [] → c ≠ [] →
      a.all emailChar = true → b.all emailChar = true →
      c.all emailChar = true →
      s.data = a ++ '@' :: (b ++ '.' :: c) → validateEmail s = true) ∧
    ('@' ∉ s.data → validateEmail s = false) ∧
    ('.' ∉ s.data.dropWhile notAt → validateEmail s = false) := by
  refine ⟨?_, ?_, ?_⟩
  · rintro a b c ha hb hc hall_a hall_b hall_c hs
    have hano : ∀ x ∈ a, x ≠ '@' := fun x hx =>
      emailChar_ne_at (List.all_eq_true.mp hall_a x hx)
    obtain ⟨x, b2, rfl⟩ := List.exists_cons_of_ne_nil hb
    obtain ⟨y, c2, rfl⟩ := List.exists_cons_of_ne_nil hc
    have hmem : '.' ∈ ((x :: b2) ++ '.' :: y :: c2).tail.dropLast := by
      rw [List.cons_append, List.tail_cons]
      exact dot_mem_dropLast b2 y c2
    have hdot : emailChar '.' = true := by decide
    simp only [validateEmail, hs]
    rw [takeWhile_notAt_append a _ hano, dropWhile_notAt_append a _ hano]
    simp [ha, hall_a, hall_b, hall_c, hdot, List.all_append,
      contains_of_mem hmem]
    simp only [List.all_cons, Bool.and_eq_true, List.all_eq_true] at hall_b
    exact hall_b
  · intro hno
    have hd : s.data.dropWhile notAt = [] := dropWhile_notAt_eq_nil s.data hno
    simp [validateEmail, hd]
  · intro hnd
    cases hval : validateEmail s with
    | false => rfl
    | true =>
      exfalso
      have h2 := hval
      simp only [validateEmail, Bool.and_eq_true] at h2
      obtain ⟨-, hcont⟩ := h2
      have hm : '.' ∈ ((s.data.dropWhile notAt).drop 1).tail.dropLast := by
        simpa [List.contains] using hcont
      apply hnd
      have s1 := List.dropLast_sublist (((s.data.dropWhile notAt).drop 1).tail)
      have s2 := List.tail_sublist ((s.data.dropWhile notAt).drop 1)
      have s3 := List.drop_sublist 1 (s.data.dropWhile notAt)
      exact s3.subset (s2.subset (s1.subset hm))

/-- Witness for C2: a regex-shaped address passes, an address without
`@` fails, and an address without a dot after the `@` fails. -/
theorem validateEmail_spec_witness :
    validateEmail "user@mail.com" = true ∧
    validateEmail "usermail.com" = false ∧
    validateEmail "user@mailcom" = false := by
  refine ⟨?_, ?_, ?_⟩
  · exact (validateEmail_spec "user@mail.com").1
      ['u', 's', 'e', 'r'] ['m', 'a', 'i', 'l'] ['c', 'o', 'm']
      (by decide) (by decide) (by decide) (by decide) (by decide) (by decide)
      (by decide)
  · exact (validateEmail_spec "usermail.com").2.1 (by decide)
  · exact (validateEmail_spec "user@mailcom").2.2 (by decide)

/-- Characters with equal code points are equal. -/
lemma char_eq_of_toNat_eq {a b : Char} (h : a.toNat = b.toNat) : a = b :=
  Char.eq_of_val_eq (UInt32.ext h)

/-- The digit-block test holds exactly when the list is a digit in
`1`–`9` followed by digits, with total length two to fifteen. -/
lemma phoneDigits_iff (l : List Char) :
    phoneDigits l = true ↔
      ∃ c rest, l = c :: rest ∧ isDigitChar c = true ∧ c ≠ '0' ∧
        rest.all isDigitChar = true ∧ 2 ≤ (c :: rest).length ∧
        (c :: rest).length ≤ 15 := by
  cases l with
  | nil => simp [phoneDigits]
  | cons c rest =>
    simp only [phoneDigits, Bool.and_eq_true, decide_eq_true_eq]
    constructor
    · rintro ⟨⟨⟨⟨h1, h2⟩, h3⟩, h4⟩, h5⟩
      refine ⟨c, rest, rfl, ?_, ?_, h3, ?_, ?_⟩
      · simp only [isDigitChar, Bool.and_eq_true, decide_eq_true_eq]
        exact ⟨le_trans (by decide) h1, h2⟩
      · intro he
        rw [he] at h1
        exact absurd h1 (by decide)
      · simp only [List.length_cons]
        have : 1 ≤ rest.length := h4
        omega
      · simp only [List.length_cons]
        have : rest.length ≤ 14 := h5
        omega
    · rintro ⟨c2, rest2, heq, hd, hne, hall, hlen1, hlen2⟩
      injection heq with e1 e2
      subst e1
      subst e2
      simp only [isDigitChar, Bool.and_eq_true, decide_eq_true_eq] at hd
      have h0 : 48 ≤ c.toNat := hd.1
      have hne2 : c.toNat ≠ 48 := fun he => hne (char_eq_of_toNat_eq he)
      simp only [List.length_cons] at hlen1 hlen2
      refine ⟨⟨⟨⟨?_, hd.2⟩, hall⟩, ?_⟩, ?_⟩
      · show 49 ≤ c.toNat
        omega
      · show 1 ≤ rest.length
        omega
      · show rest.length ≤ 14
        omega

/-- The full phone regex test holds exactly when the list is an
optional leading `+` followed by such a digit block. -/
lemma phoneRegexTest_iff (l : List Char) :
    phoneRegexTest l = true ↔
      ∃ c rest, (l = c :: rest ∨ l = '+' :: c :: rest) ∧
        isDigitChar c = true ∧ c ≠ '0' ∧ rest.all isDigitChar = true ∧
        2 ≤ (c :: rest).length ∧ (c :: rest).length ≤ 15 := by
  cases l with
  | nil =>
    simp [phoneRegexTest]
  | cons x xs =>
    by_cases hx : x = '+'
    · subst hx
      rw [show phoneRegexTest ('+' :: xs) = phoneDigits xs from by
        simp [phoneRegexTest]]
      rw [phoneDigits_iff]
      constructor
      · rintro ⟨c, rest, heq, hd, hne, hall, h1, h2⟩
        exact ⟨c, rest, Or.inr (by rw [heq]), hd, hne, hall, h1, h2⟩
      · rintro ⟨c, rest, hor, hd, hne, hall, h1, h2⟩
        cases hor with
        | inl h =>
          injection h with e1 e2
          rw [← e1] at hd
          exact absurd hd (by decide)
        | inr h =>
          injection h with e1 e2
          exact ⟨c, rest, e2, hd, hne, hall, h1, h2⟩
    · rw [show phoneRegexTest (x :: xs) = phoneDigits (x :: xs) from by
        simp [phoneRegexTest, hx]]
      rw [phoneDigits_iff]
      constructor
      · rintro ⟨c, rest, heq, hd, hne, hall, h1, h2⟩
        exact ⟨c, rest, Or.inl heq, hd, hne, hall, h1, h2⟩
      · rintro ⟨c, rest, hor, hd, hne, hall, h1, h2⟩
        cases hor with
        | inl h =>
          exact ⟨c, rest, h, hd, hne, hall, h1, h2⟩
        | inr h =>
          injection h with e1 e2
          exact absurd e1 hx

/-- C3: the phone validator first removes every whitespace character
and then accepts exactly the lists formed by an optional leading `+`
followed by two to fifteen digits whose first digit is not `0`. -/
theorem validatePhone_spec (s : String) :
    validatePhone s = true ↔
      ∃ c rest,
        (stripWhitespace s = c :: rest ∨
          stripWhitespace s = '+' :: c :: rest) ∧
        isDigitChar c = true ∧ c ≠ '0' ∧ rest.all isDigitChar = true ∧
        2 ≤ (c :: rest).length ∧ (c :: rest).length ≤ 15 :=
  phoneRegexTest_iff (stripWhitespace s)

/-- Witness for C3: an international number with internal spaces and a
leading `+` passes the validator. -/
theorem validatePhone_spec_witness :
    validatePhone "+62 812 3456" = true := by
  apply (validatePhone_spec "+62 812 3456").mpr
  exact ⟨'6', ['2', '8', '1', '2', '3', '4', '5', '6'], Or.inr (by decide),
    by decide, by decide, by decide, by decide, by decide⟩
